import Mathlib

/-!
Verification of the core logic of an Outlook-to-Airtable add-in
(`src/taskpane/taskpane.ts`): the link discovery/deduplication engine,
the title resolver, the token-based reference resolver, the attachment
delivery pipeline with its OneDrive upload/share fallback chain, and the
base64 content encoder.  Host and network effects (Office callbacks,
`fetch`, MSAL) are passed in as explicit oracle parameters; platform
builtins (`btoa`, `atob`, `new URL`, regex matching, `toLowerCase`,
`Set`) are embedded as executable Lean functions over lists of
characters and bytes.
-/

/-- Case-insensitive match of the lowercase pattern `pat` against a
prefix of `cs`; on success returns the consumed original characters and
the remainder.  Models literal matching under the regex `i` flag. -/
def dropPatCI : List Char → List Char → Option (List Char × List Char)
  | [], cs => some ([], cs)
  | _ :: _, [] => none
  | p :: ps, c :: cs =>
    if c.toLower = p then
      match dropPatCI ps cs with
      | some (tk, rest) => some (c :: tk, rest)
      | none => none
    else none

/-- Whether `pat` occurs as a contiguous substring of `hay`.  Models
JavaScript `String.prototype.includes`. -/
def containsSub (hay pat : List Char) : Bool :=
  match hay with
  | [] => pat.isEmpty
  | _ :: t => pat.isPrefixOf hay || containsSub t pat

/-- Insertion-order deduplication keeping the first occurrence of each
element, with an accumulator of already-seen values.  Models iteration
order of a JavaScript `Set`. -/
def dedupFirstAux (seen : List String) : List String → List String
  | [] => []
  | x :: xs =>
    if x ∈ seen then dedupFirstAux seen xs
    else x :: dedupFirstAux (x :: seen) xs

/-- `Array.from(new Set(l))`: `l` with all but the first occurrence of
each element removed, order of first appearance preserved. -/
def dedupFirst (l : List String) : List String :=
  dedupFirstAux [] l

/-- JavaScript truthiness on an optional string field: an absent field
and the empty string are both falsy. -/
def truthy : Option String → Option String
  | some s => if s = "" then none else some s
  | none => none

/-- `String.prototype.toLowerCase` (ASCII range, which is all the code
compares). -/
def toLowerStr (s : String) : String :=
  String.mk (s.toList.map Char.toLower)

/-- `String.prototype.endsWith`. -/
def endsWithStr (s pat : String) : Bool :=
  pat.toList.isSuffixOf s.toList

/-- `String.prototype.startsWith`. -/
def startsWithStr (s pat : String) : Bool :=
  pat.toList.isPrefixOf s.toList

/-! ### Link Extractor (`getLinksFromBody`, `filterLink`, `limitBodyText`) -/

/-- The characters the JavaScript regex class `\s` matches (ASCII part);
`\S` is its complement.  Models the `\S+` atom of the URL regex. -/
def isJsSpace (c : Char) : Bool :=
  c = ' ' || c = '\t' || c = '\n' || c = '\r' || c = '\x0b' || c = '\x0c'

/-- One attempted match of `/https?:\/\/\S+/i` at the head of `cs`:
the scheme (`s?` greedy, case-insensitive) followed by a maximal
non-empty run of non-whitespace.  Returns the matched original text and
the remainder after the match. -/
def matchUrlAt (cs : List Char) : Option (List Char × List Char) :=
  match dropPatCI "https://".toList cs with
  | some (tk, rest) =>
    let body := rest.takeWhile (fun c => !isJsSpace c)
    if body.isEmpty then none else some (tk ++ body, rest.drop body.length)
  | none =>
    match dropPatCI "http://".toList cs with
    | some (tk, rest) =>
      let body := rest.takeWhile (fun c => !isJsSpace c)
      if body.isEmpty then none else some (tk ++ body, rest.drop body.length)
    | none => none

/-- Global scan of `/https?:\/\/\S+/gim` over the text: leftmost match
first, resuming after each match, advancing one character on failure.
The fuel argument (initialised to the text length) only bounds the
recursion; each step consumes at least one character. -/
def scanUrlsAux : Nat → List Char → List String
  | 0, _ => []
  | _, [] => []
  | fuel + 1, c :: rest =>
    match matchUrlAt (c :: rest) with
    | some (m, restAfter) => String.mk m :: scanUrlsAux fuel restAfter
    | none => scanUrlsAux fuel rest

/-- `body.match(/https?:\/\/\S+/gim) ?? []` as a list of matched
substrings. -/
def scanUrls (cs : List Char) : List String :=
  scanUrlsAux cs.length cs

/-- `limitBodyText(text, maxLength)`: truncate the body to at most
`maxLength` characters (empty text stays empty). -/
def limitBodyText (text : String) (maxLength : Nat) : String :=
  if text = "" then ""
  else if text.length ≤ maxLength then text
  else String.mk (text.toList.take maxLength)

/-- `m.replace(/[).,]+$/, "")`: strip the maximal trailing run of
`)`, `.`, `,` from a match. -/
def stripTrail (s : String) : String :=
  String.mk ((s.toList.reverse.dropWhile fun c => c = ')' || c = '.' || c = ',').reverse)

/-- The fixed social-media domain list used by the repeated-occurrence
exclusion rule. -/
def sigDomains : List String :=
  ["linkedin.com", "facebook.com", "instagram.com", "twitter.com", "youtube.com", "vimeo.com"]

/-- `filterLink(url, count)`: the exclusion heuristics.  `true` keeps
the URL.  Note that the signature/logo test runs over the whole
lowercased URL, not only its path. -/
def filterLink (url : String) (count : Nat) : Bool :=
  let lower := toLowerStr url
  if containsSub lower.toList "safelinks.protection.outlook.com".toList then false
  else if containsSub lower.toList "cid:".toList then false
  else if (endsWithStr lower ".png" || endsWithStr lower ".jpg" ||
           endsWithStr lower ".jpeg" || endsWithStr lower ".gif") &&
          (containsSub lower.toList "signature".toList ||
           containsSub lower.toList "logo".toList) then false
  else if decide (count > 1) &&
          (sigDomains.any fun d => containsSub lower.toList d.toList) then false
  else true

/-- `getLinksFromBody`: bound the body to 12000 characters, find the
regex matches, strip trailing punctuation from each, count occurrences
of each cleaned URL, filter through `filterLink`, and deduplicate
keeping first appearance. -/
def getLinksFromBody (body : String) : List String :=
  let limited := limitBodyText body 12000
  let found := scanUrls limited.toList
  let cleaned := found.map stripTrail
  let kept := cleaned.filter fun url => filterLink url (cleaned.count url)
  dedupFirst kept

/-! ### Title Resolver (`getLinkTitle`, `linkTitleCache`) -/

/-- Models the platform URL parser (`new URL`) restricted to absolute
http(s) URLs, returning `(hostname, pathname)`: the authority runs to
the first `/`, `?` or `#`, a port after `:` is dropped from the
hostname, the hostname is lowercased, and the pathname is everything
from the first `/` up to `?` or `#` (defaulting to `"/"`).  Inputs with
an empty host or another scheme are treated as unparsable
(`none`, where the source sees a thrown `TypeError`). -/
def parseHttpUrl (s : String) : Option (String × String) :=
  let afterScheme :=
    match dropPatCI "https://".toList s.toList with
    | some (_, rest) => some rest
    | none =>
      match dropPatCI "http://".toList s.toList with
      | some (_, rest) => some rest
      | none => none
  match afterScheme with
  | none => none
  | some rest =>
    let auth := rest.takeWhile fun c => !(c = '/' || c = '?' || c = '#')
    let afterAuth := rest.drop auth.length
    let host := auth.takeWhile fun c => c ≠ ':'
    if host.isEmpty then none
    else
      let path := afterAuth.takeWhile fun c => !(c = '?' || c = '#')
      let pathStr := if path.isEmpty then "/" else String.mk path
      some (String.mk (host.map Char.toLower), pathStr)

/-- `getLinkTitle(link)` with the process-wide `linkTitleCache` made an
explicit association list: a truthy cached title wins, otherwise
`hostname + pathname` (pathname omitted when it is `"/"`), and the raw
link when the URL does not parse. -/
def getLinkTitle (linkTitleCache : List (String × String)) (link : String) : String :=
  match truthy (linkTitleCache.lookup link) with
  | some t => t
  | none =>
    match parseHttpUrl link with
    | some (host, path) => host ++ (if path = "/" then "" else path)
    | none => link

/-! ### Token-Based Reference Resolver (`resolveExternalAssignees`) -/

/-- A loaded external-person option: `{id, name, email?}`
(`AirtableProjectOption` in the source types). -/
structure AirtableProjectOption where
  id : String
  name : String
  email : Option String
deriving DecidableEq

/-- The `find` predicate of `resolveExternalAssignees`: exact id match,
case-insensitive name match, or (truthy email) case-insensitive email
match. -/
def assigneeMatches (entry : String) (opt : AirtableProjectOption) : Bool :=
  opt.id = entry ||
  toLowerStr opt.name = toLowerStr entry ||
  (match opt.email with
   | some e => !(e = "") && toLowerStr e = toLowerStr entry
   | none => false)

/-- `resolveExternalAssignees(rawEntries)` over an explicit
`externalOptions` set: entries already carrying the `rec` prefix pass
verbatim, other entries resolve through the option set (first match
wins), unmatched entries are dropped, then the collected ids are
deduplicated (`new Set`) and filtered to truthy `rec`-prefixed ids. -/
def resolveExternalAssignees (externalOptions : List AirtableProjectOption)
    (rawEntries : List String) : List String :=
  if rawEntries.isEmpty then []
  else
    let ids := rawEntries.filterMap fun entry =>
      if startsWithStr entry "rec" then some entry
      else (externalOptions.find? (assigneeMatches entry)).map (·.id)
    (dedupFirst ids).filter fun id => !(id = "") && startsWithStr id "rec"

/-! ### Attachment Delivery Pipeline (`prepareAirtableAttachments`) -/

/-- `OutlookAttachmentPreview`: the attachment handle offered for
selection. -/
structure OutlookAttachmentPreview where
  id : String
  name : String
  contentType : String
  size : Nat
  isInline : Bool
deriving DecidableEq

/-- `AirtableAttachmentInput`: the `{filename, url}` pair the backend
accepts. -/
structure AirtableAttachmentInput where
  filename : String
  url : String
deriving DecidableEq

/-- The outcome of `getAttachmentContentAsync` for one attachment, as
resolved by the wrapper promise in `prepareAirtableAttachments`:
an opaque reference URL, an embedded base64 payload, or unsupported
(which also covers a failed host callback — the wrapper resolves, it
never rejects). -/
inductive AttachmentContent where
  | url (value : String)
  | base64 (value : String)
  | unsupported
deriving DecidableEq

/-- The outcome of one `uploadToOneDriveAndShare` call as seen by the
loop in `prepareAirtableAttachments`: a delivered `{filename, url}`,
`null` (no URL obtained), or a thrown exception (caught by the
per-item `try/catch`). -/
inductive UploadOutcome where
  | ok (result : AirtableAttachmentInput)
  | noUrl
  | threw
deriving DecidableEq

/-- Observable outcome of a `prepareAirtableAttachments` run: the
returned results plus instrumentation traces recording, in order, the
ids of attachments whose content was acquired and the ids of
attachments routed into the upload path. -/
structure PrepOutcome where
  results : List AirtableAttachmentInput
  acquired : List String
  uploads : List String
deriving DecidableEq

/-- The sequential per-attachment loop of `prepareAirtableAttachments`:
a reference URL is delivered directly, a base64 payload goes through
the upload oracle (`ok` delivers, `noUrl` and a caught exception skip),
and unsupported content is skipped. -/
def prepareLoop (graphToken : String)
    (getContent : OutlookAttachmentPreview → AttachmentContent)
    (upload : OutlookAttachmentPreview → String → String → UploadOutcome) :
    List OutlookAttachmentPreview → PrepOutcome
  | [] => ⟨[], [], []⟩
  | att :: rest =>
    let tail := prepareLoop graphToken getContent upload rest
    match getContent att with
    | .url v => ⟨⟨att.name, v⟩ :: tail.results, att.id :: tail.acquired, tail.uploads⟩
    | .base64 v =>
      match upload att v graphToken with
      | .ok r => ⟨r :: tail.results, att.id :: tail.acquired, att.id :: tail.uploads⟩
      | .noUrl => ⟨tail.results, att.id :: tail.acquired, att.id :: tail.uploads⟩
      | .threw => ⟨tail.results, att.id :: tail.acquired, att.id :: tail.uploads⟩
    | .unsupported => ⟨tail.results, att.id :: tail.acquired, tail.uploads⟩

/-- `prepareAirtableAttachments(selected)`: empty selection returns
`[]` at once; then the Credential Broker result (`getGraphToken`) is
consulted once for the batch and a missing token returns `[]` before
any content is acquired; otherwise the attachments are processed
sequentially by `prepareLoop`. -/
def prepareAirtableAttachments (graphToken : Option String)
    (getContent : OutlookAttachmentPreview → AttachmentContent)
    (upload : OutlookAttachmentPreview → String → String → UploadOutcome)
    (selected : List OutlookAttachmentPreview) : PrepOutcome :=
  if selected.isEmpty then ⟨[], [], []⟩
  else
    match graphToken with
    | none => ⟨[], [], []⟩
    | some tok => prepareLoop tok getContent upload selected

/-! ### OneDrive upload and share-link negotiation
(`uploadToOneDriveAndShare`) -/

/-- The item metadata returned by the byte-range upload `PUT`
(`uploaded` in the source): optional `id` and optional `webUrl`. -/
structure DriveItem where
  id : Option String
  webUrl : Option String
deriving DecidableEq

/-- Outcome of one `fetch` whose `!resp.ok` branch is handled: a parsed
body or a non-2xx response. -/
inductive HttpResult (α : Type) where
  | ok (body : α)
  | err
deriving DecidableEq

/-- Outcome of the direct-download-URL `GET`, which runs inside its own
`try/catch`: a 2xx response carrying the optional
`@microsoft.graph.downloadUrl`, a non-2xx response, or a thrown
error. -/
inductive DlResult where
  | ok (dlUrl : Option String)
  | httpErr
  | threw
deriving DecidableEq

/-- Whether the direct-download step yielded no usable URL (non-2xx,
thrown, or a 2xx body whose download URL is falsy). -/
def dlFailed : DlResult → Bool
  | .ok dlUrl => (truthy dlUrl).isNone
  | .httpErr => true
  | .threw => true

/-- The `for (const scope of shareScopes)` loop of
`uploadToOneDriveAndShare`: per scope, a failed `createLink` response
continues to the next scope; a 2xx response uses
`linkBody?.link?.webUrl || uploaded?.webUrl` and returns it when
truthy, otherwise also continues.  Returns the result and the list of
scopes attempted, in order. -/
def shareLoop (filename : String) (uploadedWebUrl : Option String)
    (createLink : String → HttpResult (Option String)) :
    List String → Option AirtableAttachmentInput × List String
  | [] => (none, [])
  | scope :: rest =>
    match createLink scope with
    | .err =>
      let (r, t) := shareLoop filename uploadedWebUrl createLink rest
      (r, scope :: t)
    | .ok linkWebUrl =>
      match (truthy linkWebUrl).or (truthy uploadedWebUrl) with
      | some u => (some ⟨filename, u⟩, [scope])
      | none =>
        let (r, t) := shareLoop filename uploadedWebUrl createLink rest
        (r, scope :: t)

/-- `uploadToOneDriveAndShare(filename, base64, graphToken)` with the
network steps as oracles: failed session creation, failed upload, or a
missing item id return `null`; a truthy direct download URL is
preferred; otherwise the share-link loop runs over
`["anonymous", "organization"]`; otherwise a truthy `uploaded.webUrl`;
otherwise `null`.  The second component lists the share scopes
attempted. -/
def uploadToOneDriveAndShare (filename : String)
    (session : HttpResult String) (uploadPut : HttpResult DriveItem)
    (dl : DlResult) (createLink : String → HttpResult (Option String)) :
    Option AirtableAttachmentInput × List String :=
  match session with
  | .err => (none, [])
  | .ok _ =>
    match uploadPut with
    | .err => (none, [])
    | .ok uploaded =>
      match truthy uploaded.id with
      | none => (none, [])
      | some _ =>
        let afterDl :=
          let (r, t) := shareLoop filename uploaded.webUrl createLink
            ["anonymous", "organization"]
          match r with
          | some x => (some x, t)
          | none =>
            match truthy uploaded.webUrl with
            | some w => (some ⟨filename, w⟩, t)
            | none => (none, t)
        match dl with
        | .ok dlUrl =>
          match truthy dlUrl with
          | some u => (some ⟨filename, u⟩, [])
          | none => afterDl
        | .httpErr => afterDl
        | .threw => afterDl

/-! ### Content Encoder (`arrayBufferToBase64`, `base64ToArrayBuffer`) -/

/-- The base64 alphabet used by `btoa`/`atob`. -/
def base64Alphabet : List Char :=
  "ABCDEFGHIJKLMNOPQRSTUVWXYZabcdefghijklmnopqrstuvwxyz0123456789+/".toList

/-- Digit of the base64 alphabet at index `n` (`n < 64` in use). -/
def b64digit (n : Nat) : Char :=
  base64Alphabet.getD n 'A'

/-- Decode one base64 character to its 6-bit value. -/
def b64val (c : Char) : Option Nat :=
  let i := base64Alphabet.indexOf c
  if i < 64 then some i else none

/-- `btoa` on a latin-1 string given as its list of character codes
(all below 256): standard base64 with `=` padding. -/
def btoaBytes : List Nat → List Char
  | [] => []
  | [a] => [b64digit (a / 4), b64digit (a % 4 * 16), '=', '=']
  | [a, b] => [b64digit (a / 4), b64digit (a % 4 * 16 + b / 16), b64digit (b % 16 * 4), '=']
  | a :: b :: c :: rest =>
    b64digit (a / 4) :: b64digit (a % 4 * 16 + b / 16) ::
      b64digit (b % 16 * 4 + c / 64) :: b64digit (c % 64) :: btoaBytes rest

/-- `atob` on a base64 string, producing the character codes of the
decoded latin-1 string; `none` models the thrown
`InvalidCharacterError` on input that is not valid padded base64. -/
def atobChars : List Char → Option (List Nat)
  | [] => some []
  | c1 :: c2 :: c3 :: c4 :: rest =>
    match b64val c1, b64val c2 with
    | some v1, some v2 =>
      if c3 = '=' && c4 = '=' && rest.isEmpty then
        if v2 % 16 = 0 then some [v1 * 4 + v2 / 16] else none
      else if c4 = '=' && rest.isEmpty then
        match b64val c3 with
        | some v3 =>
          if v3 % 4 = 0 then some [v1 * 4 + v2 / 16, v2 % 16 * 16 + v3 / 4] else none
        | none => none
      else
        match b64val c3, b64val c4, atobChars rest with
        | some v3, some v4, some tail =>
          some ((v1 * 4 + v2 / 16) :: (v2 % 16 * 16 + v3 / 4) :: (v3 % 4 * 64 + v4) :: tail)
        | _, _, _ => none
    | _, _ => none
  | _ => none

/-- The chunked accumulation loop of `arrayBufferToBase64`: the binary
string is built 0x8000 bytes at a time via `String.fromCharCode`;
represented as the list of character codes. -/
def binaryOfChunksAux : Nat → List Nat → List Nat
  | 0, _ => []
  | _, [] => []
  | fuel + 1, b :: rest =>
    List.take 0x8000 (b :: rest) ++ binaryOfChunksAux fuel (List.drop 0x7fff rest)

/-- The chunk loop started with fuel equal to the buffer length (each
iteration consumes at least one byte, so the fuel never runs out). -/
def binaryOfChunks (bytes : List Nat) : List Nat :=
  binaryOfChunksAux bytes.length bytes

/-- `arrayBufferToBase64(buffer)`: build the binary string chunkwise,
then `btoa` it.  The buffer is the list of its byte values. -/
def arrayBufferToBase64 (buffer : List Nat) : List Char :=
  btoaBytes (binaryOfChunks buffer)

/-- `base64ToArrayBuffer(base64)`: `atob`, then read each character
code into a byte buffer (`none` models the exception `atob` throws on
invalid input). -/
def base64ToArrayBuffer (base64 : List Char) : Option (List Nat) :=
  atobChars base64

/-! ### Helper lemmas -/

/-- The per-attachment delivery function realised by the loop body of
`prepareAirtableAttachments`: `some` on a Delivered outcome, `none` on
a Skipped one. -/
def deliverOne (graphToken : String)
    (getContent : OutlookAttachmentPreview → AttachmentContent)
    (upload : OutlookAttachmentPreview → String → String → UploadOutcome)
    (att : OutlookAttachmentPreview) : Option AirtableAttachmentInput :=
  match getContent att with
  | .url v => some ⟨att.name, v⟩
  | .base64 v =>
    match upload att v graphToken with
    | .ok r => some r
    | .noUrl => none
    | .threw => none
  | .unsupported => none

/-- Whether an acquired content value is an embedded payload. -/
def isPayload : AttachmentContent → Bool
  | .base64 _ => true
  | _ => false

theorem dedupFirstAux_not_mem_seen (l : List String) :
    ∀ seen x, x ∈ dedupFirstAux seen l → x ∉ seen := by
  induction l with
  | nil => intro seen x hx; simp [dedupFirstAux] at hx
  | cons a t ih =>
    intro seen x hx
    by_cases ha : a ∈ seen
    · rw [dedupFirstAux, if_pos ha] at hx
      exact ih seen x hx
    · rw [dedupFirstAux, if_neg ha] at hx
      rcases List.mem_cons.mp hx with h | h
      · simpa [h] using ha
      · have := ih (a :: seen) x h
        exact fun hs => this (List.mem_cons_of_mem a hs)

theorem dedupFirstAux_nodup (l : List String) : ∀ seen, (dedupFirstAux seen l).Nodup := by
  induction l with
  | nil => intro seen; simp [dedupFirstAux]
  | cons a t ih =>
    intro seen
    by_cases ha : a ∈ seen
    · rw [dedupFirstAux, if_pos ha]; exact ih seen
    · rw [dedupFirstAux, if_neg ha]
      refine List.nodup_cons.mpr ⟨fun hmem => ?_, ih (a :: seen)⟩
      exact dedupFirstAux_not_mem_seen t (a :: seen) a hmem (List.mem_cons_self a seen)

theorem dedupFirst_nodup (l : List String) : (dedupFirst l).Nodup :=
  dedupFirstAux_nodup l []

theorem prepareLoop_results (graphToken : String)
    (getContent : OutlookAttachmentPreview → AttachmentContent)
    (upload : OutlookAttachmentPreview → String → String → UploadOutcome)
    (l : List OutlookAttachmentPreview) :
    (prepareLoop graphToken getContent upload l).results =
      l.filterMap (deliverOne graphToken getContent upload) := by
  induction l with
  | nil => rfl
  | cons att rest ih =>
    rw [prepareLoop, List.filterMap_cons]
    rcases hc : getContent att with v | v | _
    · simp [deliverOne, hc, ih]
    · rcases hu : upload att v graphToken with r | _ | _ <;> simp [deliverOne, hc, hu, ih]
    · simp [deliverOne, hc, ih]

theorem prepareLoop_acquired (graphToken : String)
    (getContent : OutlookAttachmentPreview → AttachmentContent)
    (upload : OutlookAttachmentPreview → String → String → UploadOutcome)
    (l : List OutlookAttachmentPreview) :
    (prepareLoop graphToken getContent upload l).acquired = l.map (·.id) := by
  induction l with
  | nil => rfl
  | cons att rest ih =>
    rw [prepareLoop]
    rcases hc : getContent att with v | v | _
    · simp [ih]
    · rcases hu : upload att v graphToken with r | _ | _ <;> simp [hu, ih]
    · simp [ih]

theorem prepareLoop_uploads (graphToken : String)
    (getContent : OutlookAttachmentPreview → AttachmentContent)
    (upload : OutlookAttachmentPreview → String → String → UploadOutcome)
    (l : List OutlookAttachmentPreview) :
    (prepareLoop graphToken getContent upload l).uploads =
      (l.filter fun att => isPayload (getContent att)).map (·.id) := by
  induction l with
  | nil => rfl
  | cons att rest ih =>
    rw [prepareLoop, List.filter_cons]
    rcases hc : getContent att with v | v | _
    · simp [isPayload, hc, ih]
    · rcases hu : upload att v graphToken with r | _ | _ <;> simp [isPayload, hc, hu, ih]
    · simp [isPayload, hc, ih]

theorem prepare_some_eq_loop (tok : String)
    (getContent : OutlookAttachmentPreview → AttachmentContent)
    (upload : OutlookAttachmentPreview → String → String → UploadOutcome)
    (l : List OutlookAttachmentPreview) :
    prepareAirtableAttachments (some tok) getContent upload l =
      prepareLoop tok getContent upload l := by
  cases l <;> simp [prepareAirtableAttachments, prepareLoop]

theorem b64digit_ne_pad (n : Nat) : b64digit n ≠ '=' := by
  rcases lt_or_ge n 64 with h | h
  · have hall : ∀ m < 64, b64digit m ≠ '=' := by decide
    exact hall n h
  · have hlen : base64Alphabet.length ≤ n := by
      have : base64Alphabet.length = 64 := by decide
      omega
    rw [b64digit, List.getD_eq_default _ _ hlen]
    decide

theorem b64val_b64digit : ∀ n < 64, b64val (b64digit n) = some n := by decide

theorem binaryOfChunksAux_eq :
    ∀ fuel (l : List Nat), l.length ≤ fuel → binaryOfChunksAux fuel l = l := by
  intro fuel
  induction fuel with
  | zero =>
    intro l hl
    have : l = [] := List.eq_nil_of_length_eq_zero (by omega)
    simp [this, binaryOfChunksAux]
  | succ fuel ih =>
    intro l hl
    match l with
    | [] => rfl
    | b :: rest =>
      rw [binaryOfChunksAux]
      have hstep : (0x8000 : Nat) = 0x7fff + 1 := by norm_num
      rw [hstep, List.take_succ_cons]
      have hdrop : (List.drop 0x7fff rest).length ≤ fuel := by
        simp only [List.length_drop]
        simp only [List.length_cons] at hl
        omega
      rw [ih (List.drop 0x7fff rest) hdrop]
      simp [List.take_append_drop]

theorem binaryOfChunks_eq (l : List Nat) : binaryOfChunks l = l :=
  binaryOfChunksAux_eq l.length l le_rfl

theorem atob_btoa (b : List Nat) (hb : ∀ x ∈ b, x < 256) :
    atobChars (btoaBytes b) = some b := by
  match b with
  | [] => rfl
  | [a] =>
    have ha : a < 256 := hb a (by simp)
    rw [btoaBytes, atobChars]
    rw [b64val_b64digit (a / 4) (by omega), b64val_b64digit (a % 4 * 16) (by omega)]
    simp only []
    rw [if_pos (by simp)]
    rw [if_pos (by omega)]
    congr 1
    congr 1
    omega
  | [a, c] =>
    have ha : a < 256 := hb a (by simp)
    have hc : c < 256 := hb c (by simp)
    rw [btoaBytes, atobChars]
    rw [b64val_b64digit (a / 4) (by omega), b64val_b64digit (a % 4 * 16 + c / 16) (by omega)]
    simp only []
    rw [if_neg (by simp [b64digit_ne_pad])]
    rw [if_pos (by simp)]
    rw [b64val_b64digit (c % 16 * 4) (by omega)]
    simp only []
    rw [if_pos (by omega)]
    congr 1
    have h1 : a / 4 * 4 + (a % 4 * 16 + c / 16) / 16 = a := by omega
    have h2 : (a % 4 * 16 + c / 16) % 16 * 16 + c % 16 * 4 / 4 = c := by omega
    rw [h1, h2]
  | a :: c :: d :: rest =>
    have ha : a < 256 := hb a (by simp)
    have hc : c < 256 := hb c (by simp)
    have hd : d < 256 := hb d (by simp)
    have ih := atob_btoa rest (fun x hx => hb x (by simp [hx]))
    rw [btoaBytes, atobChars]
    rw [b64val_b64digit (a / 4) (by omega), b64val_b64digit (a % 4 * 16 + c / 16) (by omega)]
    simp only []
    rw [if_neg (by simp [b64digit_ne_pad])]
    rw [if_neg (by simp [b64digit_ne_pad])]
    rw [b64val_b64digit (c % 16 * 4 + d / 64) (by omega), b64val_b64digit (d % 64) (by omega), ih]
    simp only []
    congr 1
    have h1 : a / 4 * 4 + (a % 4 * 16 + c / 16) / 16 = a := by omega
    have h2 : (a % 4 * 16 + c / 16) % 16 * 16 + (c % 16 * 4 + d / 64) / 4 = c := by omega
    have h3 : (c % 16 * 4 + d / 64) % 4 * 64 + d % 64 = d := by omega
    rw [h1, h2, h3]

/-! ### Claim theorems -/

/-- Claim C1: for every non-empty selection, if the Credential Broker
returns no token and at least one selected attachment has
embedded-payload content, `prepareAirtableAttachments` returns `[]` —
no partial list is produced for the batch. -/
theorem c1_no_token_empty_batch
    (getContent : OutlookAttachmentPreview → AttachmentContent)
    (upload : OutlookAttachmentPreview → String → String → UploadOutcome)
    (selected : List OutlookAttachmentPreview)
    (hne : selected ≠ [])
    (hpayload : ∃ att ∈ selected, ∃ v, getContent att = AttachmentContent.base64 v) :
    (prepareAirtableAttachments none getContent upload selected).results = [] := by
  cases selected with
  | nil => exact absurd rfl hne
  | cons a t => rfl

/-- Witness for C1 at a concrete one-element batch of base64 content. -/
theorem c1_no_token_empty_batch_witness :
    (prepareAirtableAttachments none (fun _ => AttachmentContent.base64 "QUJD")
      (fun _ _ _ => UploadOutcome.noUrl)
      [⟨"att1", "report.pdf", "application/pdf", 3, false⟩]).results = [] :=
  c1_no_token_empty_batch _ _ _ (by simp)
    ⟨⟨"att1", "report.pdf", "application/pdf", 3, false⟩, by simp, "QUJD", rfl⟩

/-- Claim C2: an attachment whose acquired content is an opaque
reference `{type:"url", value}` is delivered as
`{filename: attachment.name, url: value}` directly and is never routed
into the upload path; a singleton batch of such an attachment yields
exactly that one pair with zero upload calls. -/
theorem c2_reference_passthrough
    (tok v : String) (getContent : OutlookAttachmentPreview → AttachmentContent)
    (upload : OutlookAttachmentPreview → String → String → UploadOutcome)
    (selected : List OutlookAttachmentPreview) (att : OutlookAttachmentPreview)
    (hmem : att ∈ selected)
    (hurl : getContent att = AttachmentContent.url v)
    (hids : (selected.map (·.id)).Nodup) :
    (⟨att.name, v⟩ : AirtableAttachmentInput) ∈
      (prepareAirtableAttachments (some tok) getContent upload selected).results ∧
    att.id ∉ (prepareAirtableAttachments (some tok) getContent upload selected).uploads ∧
    prepareAirtableAttachments (some tok) getContent upload [att] =
      ⟨[⟨att.name, v⟩], [att.id], []⟩ := by
  refine ⟨?_, ?_, ?_⟩
  · rw [prepare_some_eq_loop, prepareLoop_results]
    exact List.mem_filterMap.mpr ⟨att, hmem, by simp [deliverOne, hurl]⟩
  · rw [prepare_some_eq_loop, prepareLoop_uploads]
    intro hcontra
    rcases List.mem_map.mp hcontra with ⟨att2, hmem2, hid2⟩
    have hmem2p := List.mem_filter.mp hmem2
    have hmem2s : att2 ∈ selected := hmem2p.1
    have hpay : isPayload (getContent att2) = true := hmem2p.2
    have heq : att2 = att := List.inj_on_of_nodup_map hids hmem2s hmem hid2
    rw [heq, hurl] at hpay
    simp [isPayload] at hpay
  · rw [prepare_some_eq_loop]
    simp [prepareLoop, hurl]

/-- Witness for C2 at the concrete reference scenario of the spec. -/
theorem c2_reference_passthrough_witness :
    prepareAirtableAttachments (some "tok")
      (fun _ => AttachmentContent.url "https://host/file")
      (fun _ _ _ => UploadOutcome.noUrl)
      [⟨"a1", "doc.pdf", "application/pdf", 1, false⟩] =
    ⟨[⟨"doc.pdf", "https://host/file"⟩], ["a1"], []⟩ :=
  (c2_reference_passthrough "tok" "https://host/file" _ _
    [⟨"a1", "doc.pdf", "application/pdf", 1, false⟩]
    ⟨"a1", "doc.pdf", "application/pdf", 1, false⟩ (by simp) rfl (by simp)).2.2

/-- Claim C6: an exception while processing one attachment is caught
locally, that attachment is dropped from the result, and every other
attachment of the batch is still processed; the output is exactly the
Delivered results of the rest, in selection order. -/
theorem c6_exception_isolated
    (tok v : String) (getContent : OutlookAttachmentPreview → AttachmentContent)
    (upload : OutlookAttachmentPreview → String → String → UploadOutcome)
    (xs ys : List OutlookAttachmentPreview) (a : OutlookAttachmentPreview)
    (hb : getContent a = AttachmentContent.base64 v)
    (ht : upload a v tok = UploadOutcome.threw) :
    (prepareAirtableAttachments (some tok) getContent upload (xs ++ a :: ys)).results =
      (prepareAirtableAttachments (some tok) getContent upload xs).results ++
      (prepareAirtableAttachments (some tok) getContent upload ys).results ∧
    (prepareAirtableAttachments (some tok) getContent upload (xs ++ a :: ys)).acquired =
      (xs ++ a :: ys).map (·.id) := by
  constructor
  · simp only [prepare_some_eq_loop, prepareLoop_results, List.filterMap_append,
      List.filterMap_cons]
    simp [deliverOne, hb, ht]
  · rw [prepare_some_eq_loop, prepareLoop_acquired]

/-- Witness for C6: a middle attachment whose upload throws is dropped
while its neighbours are delivered. -/
theorem c6_exception_isolated_witness :
    (prepareAirtableAttachments (some "tok")
      (fun att => if att.id = "a2" then AttachmentContent.base64 "Qg" else
        AttachmentContent.url "https://host/ok")
      (fun _ _ _ => UploadOutcome.threw)
      [⟨"a1", "one.txt", "text/plain", 1, false⟩,
       ⟨"a2", "two.txt", "text/plain", 1, false⟩,
       ⟨"a3", "three.txt", "text/plain", 1, false⟩]).results =
      [⟨"one.txt", "https://host/ok"⟩, ⟨"three.txt", "https://host/ok"⟩] := by
  have h := c6_exception_isolated "tok" "Qg"
    (fun att => if att.id = "a2" then AttachmentContent.base64 "Qg" else
      AttachmentContent.url "https://host/ok")
    (fun _ _ _ => UploadOutcome.threw)
    [⟨"a1", "one.txt", "text/plain", 1, false⟩]
    [⟨"a3", "three.txt", "text/plain", 1, false⟩]
    ⟨"a2", "two.txt", "text/plain", 1, false⟩ (by decide) rfl
  exact h.1.trans (by decide)

/-- Claim C9 (implicit): with no token and a non-empty selection,
`prepareAirtableAttachments` returns `[]` even when every selected
attachment resolves to an opaque reference needing no upload, because
the token precondition is checked before any content is acquired (the
acquisition trace stays empty). -/
theorem c9_token_before_acquisition
    (getContent : OutlookAttachmentPreview → AttachmentContent)
    (upload : OutlookAttachmentPreview → String → String → UploadOutcome)
    (selected : List OutlookAttachmentPreview)
    (hne : selected ≠ [])
    (hrefs : ∀ att ∈ selected, ∃ v, getContent att = AttachmentContent.url v) :
    (prepareAirtableAttachments none getContent upload selected).results = [] ∧
    (prepareAirtableAttachments none getContent upload selected).acquired = [] := by
  cases selected with
  | nil => exact absurd rfl hne
  | cons a t => exact ⟨rfl, rfl⟩

/-- Witness for C9 at a one-element reference-content batch. -/
theorem c9_token_before_acquisition_witness :
    (prepareAirtableAttachments none (fun _ => AttachmentContent.url "https://host/file")
      (fun _ _ _ => UploadOutcome.noUrl)
      [⟨"a1", "doc.pdf", "application/pdf", 1, false⟩]).results = [] :=
  (c9_token_before_acquisition _ _ _ (by simp)
    (fun att _ => ⟨"https://host/file", rfl⟩)).1

/-- Claim C3: after a successful upload the result URL follows the
fixed priority (d) truthy direct download URL, else (e) the share-link
loop trying scope anonymous strictly before organization with the
first scope that yields a link winning (later scopes untried), else
(f) the truthy plain `webUrl`, else `null`; in particular a failed
direct-download fetch followed by a successful anonymous share link
yields the anonymous link, not the plain web URL. -/
theorem c3_upload_url_priority
    (filename sessionUrl iid : String) (uploaded : DriveItem)
    (dl : DlResult) (createLink : String → HttpResult (Option String))
    (hid : truthy uploaded.id = some iid) :
    (∀ du u, dl = DlResult.ok du → truthy du = some u →
      uploadToOneDriveAndShare filename (.ok sessionUrl) (.ok uploaded) dl createLink =
        (some ⟨filename, u⟩, [])) ∧
    (∀ lu u, dlFailed dl = true → createLink "anonymous" = .ok lu → truthy lu = some u →
      uploadToOneDriveAndShare filename (.ok sessionUrl) (.ok uploaded) dl createLink =
        (some ⟨filename, u⟩, ["anonymous"])) ∧
    (∀ lu u, dlFailed dl = true → createLink "anonymous" = .err →
      createLink "organization" = .ok lu → truthy lu = some u →
      uploadToOneDriveAndShare filename (.ok sessionUrl) (.ok uploaded) dl createLink =
        (some ⟨filename, u⟩, ["anonymous", "organization"])) ∧
    (∀ w, dlFailed dl = true → createLink "anonymous" = .err →
      createLink "organization" = .err → truthy uploaded.webUrl = some w →
      uploadToOneDriveAndShare filename (.ok sessionUrl) (.ok uploaded) dl createLink =
        (some ⟨filename, w⟩, ["anonymous", "organization"])) ∧
    (dlFailed dl = true → createLink "anonymous" = .err →
      createLink "organization" = .err → truthy uploaded.webUrl = none →
      uploadToOneDriveAndShare filename (.ok sessionUrl) (.ok uploaded) dl createLink =
        (none, ["anonymous", "organization"])) := by
  refine ⟨?_, ?_, ?_, ?_, ?_⟩
  · intro du u hdl htr
    subst hdl
    simp [uploadToOneDriveAndShare, hid, htr]
  · intro lu u hfail hanon htr
    have hloop : shareLoop filename uploaded.webUrl createLink ["anonymous", "organization"] =
        (some ⟨filename, u⟩, ["anonymous"]) := by
      rw [shareLoop, hanon]
      simp [htr, Option.or]
    rcases dl with du | _ | _
    · simp only [dlFailed] at hfail
      have : truthy du = none := Option.isNone_iff_eq_none.mp hfail
      simp [uploadToOneDriveAndShare, hid, this, hloop]
    · simp [uploadToOneDriveAndShare, hid, hloop]
    · simp [uploadToOneDriveAndShare, hid, hloop]
  · intro lu u hfail hanon horg htr
    have hloop : shareLoop filename uploaded.webUrl createLink ["anonymous", "organization"] =
        (some ⟨filename, u⟩, ["anonymous", "organization"]) := by
      rw [shareLoop, hanon, shareLoop, horg]
      simp [htr, Option.or, shareLoop]
    rcases dl with du | _ | _
    · simp only [dlFailed] at hfail
      have : truthy du = none := Option.isNone_iff_eq_none.mp hfail
      simp [uploadToOneDriveAndShare, hid, this, hloop]
    · simp [uploadToOneDriveAndShare, hid, hloop]
    · simp [uploadToOneDriveAndShare, hid, hloop]
  · intro w hfail hanon horg htr
    have hloop : shareLoop filename uploaded.webUrl createLink ["anonymous", "organization"] =
        (none, ["anonymous", "organization"]) := by
      rw [shareLoop, hanon, shareLoop, horg, shareLoop]
    rcases dl with du | _ | _
    · simp only [dlFailed] at hfail
      have : truthy du = none := Option.isNone_iff_eq_none.mp hfail
      simp [uploadToOneDriveAndShare, hid, this, hloop, htr]
    · simp [uploadToOneDriveAndShare, hid, hloop, htr]
    · simp [uploadToOneDriveAndShare, hid, hloop, htr]
  · intro hfail hanon horg htr
    have hloop : shareLoop filename uploaded.webUrl createLink ["anonymous", "organization"] =
        (none, ["anonymous", "organization"]) := by
      rw [shareLoop, hanon, shareLoop, horg, shareLoop]
    rcases dl with du | _ | _
    · simp only [dlFailed] at hfail
      have : truthy du = none := Option.isNone_iff_eq_none.mp hfail
      simp [uploadToOneDriveAndShare, hid, this, hloop, htr]
    · simp [uploadToOneDriveAndShare, hid, hloop, htr]
    · simp [uploadToOneDriveAndShare, hid, hloop, htr]

/-- Witness for C3 at the spec scenario: download URL fetch non-2xx,
anonymous share link succeeds while a plain web URL exists. -/
theorem c3_upload_url_priority_witness :
    uploadToOneDriveAndShare "f" (.ok "u") (.ok ⟨some "id1", some "https://web"⟩)
      DlResult.httpErr
      (fun s => if s = "anonymous" then .ok (some "https://anon") else .err) =
      (some ⟨"f", "https://anon"⟩, ["anonymous"]) :=
  (c3_upload_url_priority "f" "u" "id1" ⟨some "id1", some "https://web"⟩
    DlResult.httpErr
    (fun s => if s = "anonymous" then .ok (some "https://anon") else .err)
    rfl).2.1 (some "https://anon") "https://anon" rfl rfl rfl

/-- Claim C4: `getLinksFromBody` applied to
`"see http://a.com/x and http://a.com/x."` yields exactly
`["http://a.com/x"]`: the trailing period is stripped from the second
match and the two cleaned occurrences collapse to one entry. -/
theorem c4_extraction_dedup :
    getLinksFromBody "see http://a.com/x and http://a.com/x." = ["http://a.com/x"] := by
  decide

/-- Claim C5: with options `[{id:"rec1", name:"Jane Doe",
email:"jane@x.com"}]` and tokens `["Jane Doe", "rec1", "nomatch"]`,
`resolveExternalAssignees` yields exactly `["rec1"]`; and for every
input the result is duplicate-free and every element carries the
`rec` prefix. -/
theorem c5_reference_resolution
    (opts : List AirtableProjectOption) (entries : List String) :
    resolveExternalAssignees [⟨"rec1", "Jane Doe", some "jane@x.com"⟩]
        ["Jane Doe", "rec1", "nomatch"] = ["rec1"] ∧
    (resolveExternalAssignees opts entries).Nodup ∧
    ∀ id ∈ resolveExternalAssignees opts entries, startsWithStr id "rec" = true := by
  refine ⟨by decide, ?_, ?_⟩
  · cases entries with
    | nil => simp [resolveExternalAssignees]
    | cons e t =>
      rw [resolveExternalAssignees]
      simp only [List.isEmpty_cons, Bool.false_eq_true, if_false]
      exact List.Nodup.filter _ (dedupFirst_nodup _)
  · cases entries with
    | nil => intro id hid; simp [resolveExternalAssignees] at hid
    | cons e t =>
      intro id hid
      rw [resolveExternalAssignees] at hid
      simp only [List.isEmpty_cons, Bool.false_eq_true, if_false] at hid
      have hp := (List.mem_filter.mp hid).2
      simp only [Bool.and_eq_true] at hp
      exact hp.2

/-- Witness for C5: the resolved id of the concrete scenario carries
the `rec` prefix. -/
theorem c5_reference_resolution_witness :
    startsWithStr "rec1" "rec" = true :=
  (c5_reference_resolution [⟨"rec1", "Jane Doe", some "jane@x.com"⟩]
    ["Jane Doe", "rec1", "nomatch"]).2.2 "rec1" (by decide)

/-- Claim C8: for a link missing from the title cache, `getLinkTitle`
falls back to hostname plus path (path omitted when it is `"/"`) and
to the raw string when the URL does not parse; for
`"https://example.com/a/b"` uncached it returns
`"example.com/a/b"`. -/
theorem c8_title_fallback
    (linkTitleCache : List (String × String)) (link : String)
    (hmiss : linkTitleCache.lookup link = none) :
    (parseHttpUrl link = none → getLinkTitle linkTitleCache link = link) ∧
    (∀ host path, parseHttpUrl link = some (host, path) →
      getLinkTitle linkTitleCache link = host ++ (if path = "/" then "" else path)) ∧
    getLinkTitle [] "https://example.com/a/b" = "example.com/a/b" := by
  refine ⟨?_, ?_, by decide⟩
  · intro hp
    rw [getLinkTitle, hmiss]
    simp [truthy, hp]
  · intro host path hp
    rw [getLinkTitle, hmiss]
    simp [truthy, hp]

/-- Witness for C8 at the uncached spec example. -/
theorem c8_title_fallback_witness :
    getLinkTitle [] "https://example.com/a/b" = "example.com/a/b" :=
  (c8_title_fallback [] "https://example.com/a/b" rfl).2.2

/-- Claim C10: the content encoder round-trips — decoding the encoded
wire form of any byte buffer gives back the buffer, chunked encoding
included. -/
theorem c10_encoder_roundtrip (b : List Nat) (hb : ∀ x ∈ b, x < 256) :
    base64ToArrayBuffer (arrayBufferToBase64 b) = some b := by
  rw [base64ToArrayBuffer, arrayBufferToBase64, binaryOfChunks_eq]
  exact atob_btoa b hb

/-- Witness for C10 at a concrete buffer. -/
theorem c10_encoder_roundtrip_witness :
    base64ToArrayBuffer (arrayBufferToBase64 [0, 1, 2, 255]) = some [0, 1, 2, 255] :=
  c10_encoder_roundtrip [0, 1, 2, 255] (by decide)

/-- Counterexample to claim C7 as stated: the image URL
`http://logo.example.com/pic.png` has a path (`/pic.png`) containing
neither "signature" nor "logo", yet `filterLink` drops it, because the
source tests the whole lowercased URL (here the hostname carries
"logo"), not only the path. -/
theorem c7_counterexample :
    endsWithStr (toLowerStr "http://logo.example.com/pic.png") ".png" = true ∧
    parseHttpUrl "http://logo.example.com/pic.png" =
      some ("logo.example.com", "/pic.png") ∧
    containsSub "/pic.png".toList "signature".toList = false ∧
    containsSub "/pic.png".toList "logo".toList = false ∧
    filterLink "http://logo.example.com/pic.png" 1 = false := by
  decide

/-- Claim C7 (amended): for every URL whose lowercased form ends in
`.png`, `.jpg`, `.jpeg` or `.gif` and which the wrapper-domain, `cid:`
and social-repeat rules leave alone, `filterLink` drops it if and only
if the whole lowercased URL — hostname included — contains "signature"
or "logo". -/
theorem c7_image_filter_whole_url (url : String) (count : Nat)
    (himg : (endsWithStr (toLowerStr url) ".png" || endsWithStr (toLowerStr url) ".jpg" ||
             endsWithStr (toLowerStr url) ".jpeg" || endsWithStr (toLowerStr url) ".gif") = true)
    (hsafe : containsSub (toLowerStr url).toList
      "safelinks.protection.outlook.com".toList = false)
    (hcid : containsSub (toLowerStr url).toList "cid:".toList = false)
    (hsoc : count ≤ 1 ∨
      (sigDomains.any fun d => containsSub (toLowerStr url).toList d.toList) = false) :
    filterLink url count = false ↔
      (containsSub (toLowerStr url).toList "signature".toList ||
       containsSub (toLowerStr url).toList "logo".toList) = true := by
  have hs : (decide (count > 1) &&
      (sigDomains.any fun d => containsSub (toLowerStr url).toList d.toList)) = false := by
    rcases hsoc with hc | ha
    · have hd : decide (count > 1) = false := by
        simp only [decide_eq_false_iff_not]
        omega
      rw [hd, Bool.false_and]
    · rw [ha, Bool.and_false]
  unfold filterLink
  dsimp only
  rw [hsafe, hcid, himg, hs]
  cases h : (containsSub (toLowerStr url).toList "signature".toList ||
             containsSub (toLowerStr url).toList "logo".toList) with
  | true => simp
  | false => simp

/-- Witness for the amended C7: a clean-hostname image URL whose path
carries "logo" is dropped. -/
theorem c7_image_filter_whole_url_witness :
    filterLink "http://x.com/logo.png" 1 = false :=
  (c7_image_filter_whole_url "http://x.com/logo.png" 1
    (by decide) (by decide) (by decide) (Or.inl le_rfl)).mpr (by decide)
